import Mathlib

/-
Verification of the screenshot tool (src/main.go).

The program reads newline-delimited URLs, drives a headless browser through a
bounded worker pool, writes one PNG per successfully captured URL, and records
failures in an append-only log.  Strings of the Go program are modelled as
`List Char` (exact for the ASCII data handled here); machine integers do not
occur on the modelled paths.  The file first embeds the relevant subset of
Go's standard `net/url` package (an external dependency of `makeFilepath`),
then the functions of src/main.go themselves, then the per-job pipeline and
startup sequence of `main` as explicit state-passing functions.
-/

namespace Screenshot

/-! ### Model of Go `net/url` (standard library dependency of makeFilepath)

Each definition mirrors the corresponding function of Go's net/url package,
which src/main.go calls via `url.Parse`, `u.EscapedPath()` and `u.Hostname()`.
Go byte strings are modelled as `List Char`; this is exact for ASCII input.
-/

/-- Go `strings.ContainsCtlByte` test for one byte: ASCII control characters. -/
def ctlByte (c : Char) : Bool := c.toNat < 0x20 || c.toNat == 0x7f

/-- Go `stringContainsCTLByte`. -/
def containsCTLByte (s : List Char) : Bool := s.any ctlByte

/-- Go net/url `split(s, sep, cutc)`: split at the first occurrence of `sep`. -/
def split (sep : Char) (cutc : Bool) : List Char → List Char × List Char
  | [] => ([], [])
  | c :: cs =>
    if c == sep then ([], if cutc then cs else c :: cs)
    else
      let p := split sep cutc cs
      (c :: p.1, p.2)

/-- ASCII alphabetic test used by Go `getScheme`. -/
def isSchemeAlpha (c : Char) : Bool := ('a' ≤ c && c ≤ 'z') || ('A' ≤ c && c ≤ 'Z')

/-- ASCII digit test. -/
def isDigitChar (c : Char) : Bool := '0' ≤ c && c ≤ '9'

/-- Worker of Go `getScheme`: `acc` holds the scheme characters read so far. -/
def getSchemeAux (orig : List Char) (acc : List Char) : List Char → Except String (List Char × List Char)
  | [] => .ok ([], orig)
  | c :: cs =>
    if isSchemeAlpha c then getSchemeAux orig (acc ++ [c]) cs
    else if isDigitChar c || c == '+' || c == '-' || c == '.' then
      if acc.isEmpty then .ok ([], orig) else getSchemeAux orig (acc ++ [c]) cs
    else if c == ':' then
      if acc.isEmpty then .error "missing protocol scheme"
      else .ok (acc, cs)
    else .ok ([], orig)

/-- Go net/url `getScheme`: returns `(scheme, rest-after-colon)`, or
`([], input)` when the input has no scheme. -/
def getScheme (s : List Char) : Except String (List Char × List Char) :=
  getSchemeAux s [] s

/-- ASCII lowercasing, the fragment of Go `strings.ToLower` relevant here. -/
def toLowerChar (c : Char) : Char :=
  if 'A' ≤ c && c ≤ 'Z' then Char.ofNat (c.toNat + 32) else c

/-- Encoding modes of Go net/url escaping. -/
inductive Encoding where
  | path
  | pathSegment
  | host
  | zone
  | userPassword
  | queryComponent
  | fragment
deriving DecidableEq

/-- Go net/url `shouldEscape(c, mode)`. -/
def shouldEscape (c : Char) (mode : Encoding) : Bool :=
  if ('a' ≤ c && c ≤ 'z') || ('A' ≤ c && c ≤ 'Z') || ('0' ≤ c && c ≤ '9') then false
  else if (mode == .host || mode == .zone) &&
      (c == '!' || c == '$' || c == '&' || c == Char.ofNat 39 || c == '(' || c == ')' ||
       c == '*' || c == '+' || c == ',' || c == ';' || c == '=' || c == ':' ||
       c == '[' || c == ']' || c == '<' || c == '>' || c == Char.ofNat 34) then false
  else if c == '-' || c == '_' || c == '.' || c == '~' then false
  else if c == '$' || c == '&' || c == '+' || c == ',' || c == '/' || c == ':' ||
          c == ';' || c == '=' || c == '?' || c == '@' then
    match mode with
    | .path => c == '?'
    | .pathSegment => c == '/' || c == ';' || c == ',' || c == '?'
    | .userPassword => c == '@' || c == '/' || c == '?' || c == ':'
    | .queryComponent => true
    | .fragment => false
    | _ => true
  else if mode == .fragment && (c == '!' || c == '(' || c == ')' || c == '*') then false
  else true

/-- Go `ishex`. -/
def ishex (c : Char) : Bool :=
  isDigitChar c || ('a' ≤ c && c ≤ 'f') || ('A' ≤ c && c ≤ 'F')

/-- Go `unhex`. -/
def unhex (c : Char) : Nat :=
  if '0' ≤ c && c ≤ '9' then c.toNat - '0'.toNat
  else if 'a' ≤ c && c ≤ 'f' then c.toNat - 'a'.toNat + 10
  else if 'A' ≤ c && c ≤ 'F' then c.toNat - 'A'.toNat + 10
  else 0

/-- Go net/url `unescape(s, mode)`: decodes percent escapes, validating them
and (for host/zone modes) the unescaped characters. -/
def unescapeAux (mode : Encoding) : List Char → Except String (List Char)
  | '%' :: a :: b :: rest =>
    if ishex a && ishex b then
      if mode == .host && unhex a < 8 && !(a == '2' && b == '5') then
        .error "invalid URL escape"
      else if mode == .zone &&
          !(a == '2' && b == '5') && unhex a * 16 + unhex b != 32 &&
          shouldEscape (Char.ofNat (unhex a * 16 + unhex b)) .host then
        .error "invalid character in host name"
      else
        match unescapeAux mode rest with
        | .error e => .error e
        | .ok r => .ok (Char.ofNat (unhex a * 16 + unhex b) :: r)
    else .error "invalid URL escape"
  | ['%', _] => .error "invalid URL escape"
  | ['%'] => .error "invalid URL escape"
  | '+' :: rest =>
    match unescapeAux mode rest with
    | .error e => .error e
    | .ok r => .ok ((if mode == .queryComponent then ' ' else '+') :: r)
  | c :: rest =>
    if (mode == .host || mode == .zone) && c.toNat < 0x80 && shouldEscape c mode then
      .error "invalid character in host name"
    else
      match unescapeAux mode rest with
      | .error e => .error e
      | .ok r => .ok (c :: r)
  | [] => .ok []

/-- Uppercase hexadecimal digit, as used by Go net/url `escape`. -/
def upperHexDigit (n : Nat) : Char :=
  if n < 10 then Char.ofNat ('0'.toNat + n) else Char.ofNat ('A'.toNat + n - 10)

/-- Escaping of a single character per Go net/url `escape`. -/
def escapeChar (mode : Encoding) (c : Char) : List Char :=
  if shouldEscape c mode then
    if c == ' ' && mode == .queryComponent then ['+']
    else ['%', upperHexDigit (c.toNat / 16 % 16), upperHexDigit (c.toNat % 16)]
  else [c]

/-- Go net/url `escape(s, mode)`. -/
def escape (mode : Encoding) (s : List Char) : List Char :=
  s.flatMap (escapeChar mode)

/-- Go net/url `validEncoded(s, mode)`. -/
def validEncoded (mode : Encoding) (s : List Char) : Bool :=
  s.all fun c =>
    if c == '!' || c == '$' || c == '&' || c == Char.ofNat 39 || c == '(' || c == ')' ||
       c == '*' || c == '+' || c == ',' || c == ';' || c == '=' || c == ':' || c == '@' then true
    else if c == '[' || c == ']' then true
    else if c == '%' then true
    else !shouldEscape c mode

/-- Go net/url `validOptionalPort`. -/
def validOptionalPort : List Char → Bool
  | [] => true
  | ':' :: rest => rest.all isDigitChar
  | _ => false

/-- Go net/url `validUserinfo`. -/
def validUserinfo (s : List Char) : Bool :=
  s.all fun r =>
    ('A' ≤ r && r ≤ 'Z') || ('a' ≤ r && r ≤ 'z') || ('0' ≤ r && r ≤ '9') ||
    r == '-' || r == '.' || r == '_' || r == ':' || r == '~' || r == '!' ||
    r == '$' || r == '&' || r == Char.ofNat 39 || r == '(' || r == ')' ||
    r == '*' || r == '+' || r == ',' || r == ';' || r == '=' || r == '%' || r == '@'

/-- Index of the last occurrence of `c` in `s` (Go `strings.LastIndex` for a
one-byte needle). -/
def lastIndexOf (c : Char) (s : List Char) : Option Nat :=
  match s.reverse.findIdx? (fun x => x == c) with
  | some j => some (s.length - 1 - j)
  | none => none

/-- First index where `pat` occurs in the list (Go `strings.Index`), with `i`
the index of the current position. -/
def indexOfSeq (pat : List Char) : List Char → Nat → Option Nat
  | [], i => if pat.isEmpty then some i else none
  | c :: cs, i =>
    if pat.isPrefixOf (c :: cs) then some i else indexOfSeq pat cs (i + 1)

/-- Result of Go `url.Parse`: the URL fields used by src/main.go plus the
fields parse itself writes.  `opq` is Go's `URL.Opaque`. -/
structure GoURL where
  scheme : List Char := []
  opq : List Char := []
  host : List Char := []
  path : List Char := []
  rawPath : List Char := []
  forceQuery : Bool := false
  rawQuery : List Char := []
deriving DecidableEq

/-- Go net/url `parseHost`. -/
def parseHost (host : List Char) : Except String (List Char) :=
  if host.head? == some '[' then
    match lastIndexOf ']' host with
    | none => .error "missing closing bracket in host"
    | some i =>
      if !validOptionalPort (host.drop (i + 1)) then .error "invalid port after host"
      else
        match indexOfSeq ['%', '2', '5'] (host.take i) 0 with
        | some zone =>
          match unescapeAux .host (host.take zone) with
          | .error e => .error e
          | .ok h1 =>
            match unescapeAux .zone ((host.take i).drop zone) with
            | .error e => .error e
            | .ok h2 =>
              match unescapeAux .host (host.drop i) with
              | .error e => .error e
              | .ok h3 => .ok (h1 ++ h2 ++ h3)
        | none => unescapeAux .host host
  else
    match lastIndexOf ':' host with
    | some i =>
      if !validOptionalPort (host.drop i) then .error "invalid port after host"
      else unescapeAux .host host
    | none => unescapeAux .host host

/-- Go net/url `parseAuthority`: validates the userinfo part and parses the
host; only the host is needed downstream. -/
def parseAuthority (authority : List Char) : Except String (List Char) :=
  match lastIndexOf '@' authority with
  | none => parseHost authority
  | some i =>
    match parseHost (authority.drop (i + 1)) with
    | .error e => .error e
    | .ok host =>
      let userinfo := authority.take i
      if !validUserinfo userinfo then .error "net/url: invalid userinfo"
      else if !userinfo.contains ':' then
        match unescapeAux .userPassword userinfo with
        | .error e => .error e
        | .ok _ => .ok host
      else
        let p := split ':' true userinfo
        match unescapeAux .userPassword p.1 with
        | .error e => .error e
        | .ok _ =>
          match unescapeAux .userPassword p.2 with
          | .error e => .error e
          | .ok _ => .ok host

/-- Go net/url `URL.setPath`: stores the unescaped path and remembers the raw
form when the default re-encoding differs from it. -/
def setPath (u : GoURL) (p : List Char) : Except String GoURL :=
  match unescapeAux .path p with
  | .error e => .error e
  | .ok path =>
    .ok { u with path := path, rawPath := if escape .path path == p then [] else p }

/-- Authority-and-path tail of Go net/url `parse`: consumes `//authority` when
present, then sets the path. -/
def parseAuthorityAndPath (scheme : List Char) (rest : List Char) (viaRequest : Bool)
    (forceQuery : Bool) (rawQuery : List Char) : Except String GoURL :=
  if (!scheme.isEmpty || (!viaRequest && !(['/', '/', '/'].isPrefixOf rest))) &&
      (['/', '/'].isPrefixOf rest) then
    let authority0 := rest.drop 2
    let cutAt :=
      match authority0.findIdx? (fun c => c == '/') with
      | some i => (authority0.take i, authority0.drop i)
      | none => (authority0, ([] : List Char))
    match parseAuthority cutAt.1 with
    | .error e => .error e
    | .ok host =>
      setPath { scheme := scheme, host := host, forceQuery := forceQuery, rawQuery := rawQuery } cutAt.2
  else
    setPath { scheme := scheme, forceQuery := forceQuery, rawQuery := rawQuery } rest

/-- Go net/url `parse(rawURL, viaRequest)`. -/
def parse (rawURL : List Char) (viaRequest : Bool) : Except String GoURL :=
  if containsCTLByte rawURL then .error "net/url: invalid control character in URL"
  else if rawURL.isEmpty && viaRequest then .error "empty url"
  else if rawURL == ['*'] then .ok { path := ['*'] }
  else
    match getScheme rawURL with
    | .error e => .error e
    | .ok schemeRest =>
      let scheme := schemeRest.1.map toLowerChar
      let rest0 := schemeRest.2
      let forceQuery := rest0.getLast? == some '?' && !(rest0.dropLast.contains '?')
      let rest1 := if forceQuery then rest0.dropLast else (split '?' true rest0).1
      let rawQuery := if forceQuery then [] else (split '?' true rest0).2
      if rest1.head? != some '/' then
        if !scheme.isEmpty then
          .ok { scheme := scheme, opq := rest1, forceQuery := forceQuery, rawQuery := rawQuery }
        else if viaRequest then .error "invalid URI for request"
        else if ((split '/' true rest1).1).contains ':' then
          .error "first path segment in URL cannot contain colon"
        else parseAuthorityAndPath scheme rest1 viaRequest forceQuery rawQuery
      else parseAuthorityAndPath scheme rest1 viaRequest forceQuery rawQuery

/-- Go `url.Parse`: cuts an optional fragment, parses the rest, and validates
the fragment's escaping. -/
def goUrlParse (rawURL : List Char) : Except String GoURL :=
  let p := split '#' true rawURL
  match parse p.1 false with
  | .error e => .error e
  | .ok u =>
    if p.2.isEmpty then .ok u
    else
      match unescapeAux .fragment p.2 with
      | .error e => .error e
      | .ok _ => .ok u

/-- Go `URL.EscapedPath`. -/
def escapedPath (u : GoURL) : List Char :=
  let fallback := if u.path == ['*'] then ['*'] else escape .path u.path
  if !u.rawPath.isEmpty && validEncoded .path u.rawPath then
    match unescapeAux .path u.rawPath with
    | .ok p => if p == u.path then u.rawPath else fallback
    | .error _ => fallback
  else fallback

/-- Go net/url `splitHostPort`, host component only. -/
def splitHostPort (hostPort : List Char) : List Char :=
  let host :=
    match lastIndexOf ':' hostPort with
    | some colon =>
      if validOptionalPort (hostPort.drop colon) then hostPort.take colon else hostPort
    | none => hostPort
  if host.head? == some '[' && host.getLast? == some ']' then (host.drop 1).dropLast
  else host

/-- Go `URL.Hostname`. -/
def hostname (u : GoURL) : List Char := splitHostPort u.host

/-! ### makeFilepath (src/main.go lines 148-174) -/

/-- Character class of the first sanitizing regex `[^a-zA-Z0-9_.%-]`
(main.go:159): the characters it leaves unchanged. -/
def allowed1 (c : Char) : Bool :=
  ('a' ≤ c && c ≤ 'z') || ('A' ≤ c && c ≤ 'Z') || ('0' ≤ c && c ≤ '9') ||
  c == '_' || c == '.' || c == '%' || c == '-'

/-- Character class of the second sanitizing regex (main.go:164), which is
the first class with the slash also permitted. -/
def allowed2 (c : Char) : Bool := allowed1 c || c == '/'

/-- Replacement of every character outside `allowed` with a dash, the effect
of `re.ReplaceAllString(s, "-")` for a negated character class. -/
def sanitizeWith (allowed : Char → Bool) (s : List Char) : List Char :=
  s.map fun c => if allowed c then c else '-'

/-- Collapse of every run of consecutive `d` characters into one, the effect
of replacing the regex `d+` with `d` (main.go:167-171). -/
def squeezeChar (d : Char) : List Char → List Char
  | [] => []
  | [c] => [c]
  | c :: c2 :: rest =>
    if c == d && c2 == d then squeezeChar d (c2 :: rest)
    else c :: squeezeChar d (c2 :: rest)

/-- Go `strings.TrimSuffix(s, "/")` (main.go:172). -/
def trimSuffixSlash (s : List Char) : List Char :=
  if s.getLast? == some '/' then s.dropLast else s

/-- Post-parse pipeline of makeFilepath (main.go lines 153-172): escaped path,
`/` to `/index` substitution, first sanitize, composition with the output
directory and hostname, second sanitize, dash and slash collapsing, and
trailing-slash trim. -/
def buildSavePath (pre : List Char) (u : GoURL) : List Char :=
  let requestPath0 := escapedPath u
  let requestPath1 := if requestPath0 == ['/'] then "/index".toList else requestPath0
  let requestPath := sanitizeWith allowed1 requestPath1
  let savePath0 := pre ++ ['/'] ++ hostname u ++ requestPath
  trimSuffixSlash (squeezeChar '/' (squeezeChar '-' (sanitizeWith allowed2 savePath0)))

/-- Character-level makeFilepath: parse, then build the save path. -/
def makeFilepathChars (pre requestURL : List Char) : Except String (List Char) :=
  match goUrlParse requestURL with
  | .error e => .error e
  | .ok u => .ok (buildSavePath pre u)

/-- makeFilepath of src/main.go (lines 148-174) on Lean strings.  The first
argument is the output-directory prefix. -/
def makeFilepath (pre requestURL : String) : Except String String :=
  match makeFilepathChars pre.toList requestURL.toList with
  | .error e => .error e
  | .ok p => .ok (String.mk p)

/-! ### Error sink: handleError and writeDataFile (src/main.go 140-146, 205-222) -/

/-- Failure line built by `fmt.Sprintf("run error: %s ------ %s\n", err, url)`
in handleError (main.go:141,143); note it already ends in a newline. -/
def errorLine (err u : String) : String :=
  "run error: " ++ err ++ " ------ " ++ u ++ "\n"

/-- Sequential writes of the loop in writeDataFile (main.go:216-218): each
entry is written followed by one newline. -/
def appendLines (content : String) (inData : List String) : String :=
  inData.foldl (fun acc d => acc ++ d ++ "\n") content

/-- writeDataFile (main.go:205-222) as a transformer of the target file's
content.  With `app = true` the file is opened with O_APPEND and the block is
appended.  With `app = false` the file is opened O_CREATE|O_WRONLY without
O_TRUNC, so the block overwrites the beginning of the old content and any
longer tail survives.  handleError always passes `app = true`. -/
def writeDataFile (inData : List String) (content : String) (app : Bool) : String :=
  if app then appendLines content inData
  else
    let w := appendLines "" inData
    w ++ String.mk (content.toList.drop w.toList.length)

/-- Filesystem model for image files: most recent write first. -/
def fsWrite (fs : List (String × List Nat)) (path : String) (data : List Nat) :
    List (String × List Nat) :=
  (path, data) :: fs

/-- Lookup of the current bytes at a path in the filesystem model. -/
def fsLookup (fs : List (String × List Nat)) (path : String) : Option (List Nat) :=
  match fs.find? (fun q => q.1 == path) with
  | some q => some q.2
  | none => none

/-- Shared state touched by the workers: the image files written, the content
of errorLog.txt, and the lines printed to standard error. -/
structure RunState where
  fs : List (String × List Nat)
  errorLog : String
  stderr : List String
deriving DecidableEq

/-- Initial state: no images, empty log, nothing printed. -/
def initState : RunState := { fs := [], errorLog := "", stderr := [] }

/-- handleError (main.go:140-146): prints the failure line to standard error
and appends it (writeDataFile adds one more newline) to errorLog.txt; the
write's own error is discarded. -/
def handleError (err u : String) (st : RunState) : RunState :=
  { st with
    stderr := st.stderr ++ [errorLine err u],
    errorLog := writeDataFile [errorLine err u] st.errorLog true }

/-- Number of newline-terminated lines of a file's content. -/
def countLines (s : String) : Nat := s.data.count '\n'

/-- Sequence of handleError calls, one per (error, url) record. -/
def applyRecords (records : List (String × String)) (st : RunState) : RunState :=
  records.foldl (fun s r => handleError r.1 r.2 s) st

/-! ### Flags, startup, and the per-job pipeline of main (src/main.go 26-138) -/

/-- Command-line flags of main (main.go:27-44) with their parsed values. -/
structure Flags where
  overwrite : Bool
  output : String
  inFile : String
  concurrency : Nat
  visible : Bool
  cpuprofile : String
deriving DecidableEq

/-- Default flag values (main.go:27-44): note the input-file default is the
literal file name "input", not the empty string. -/
def defaultFlags : Flags :=
  { overwrite := false, output := "out", inFile := "input", concurrency := 2,
    visible := false, cpuprofile := "" }

/-- Flags with the overwrite field replaced. -/
def setOverwrite (f : Flags) (b : Bool) : Flags := { f with overwrite := b }

/-- Where main reads its URL list from (main.go:82-93): the named file when
the flag is nonempty, standard input otherwise. -/
inductive InputSrc where
  | fromFile (name : String)
  | fromStdin
deriving DecidableEq

/-- Input selection of main.go:83: `if inFile != ""` opens the file, else the
scanner reads standard input. -/
def inputSource (inFile : String) : InputSrc :=
  if inFile ≠ "" then .fromFile inFile else .fromStdin

/-- Behaviour of one chromedp capture for a given URL: how long it would take
(in seconds) and what it would return if allowed to finish. -/
structure CaptureBehavior where
  duration : Nat
  result : Except String (List Nat)

/-- The fixed per-job deadline `time.Second * 20` of main.go:101. -/
def jobTimeoutSeconds : Nat := 20

/-- chromedp.Run under the per-job `context.WithTimeout` (main.go:101-110):
a capture whose duration exceeds the deadline is cancelled with Go's
context.DeadlineExceeded error; otherwise its own result stands. -/
def runCapture (b : CaptureBehavior) : Except String (List Nat) :=
  if jobTimeoutSeconds < b.duration then .error "context deadline exceeded"
  else b.result

/-- External-world behaviour for one run: captures per URL, write failures
per path, and the success of the startup steps. -/
structure Env where
  capture : String → CaptureBehavior
  writeFileErr : String → Option String
  profileCreateOk : Bool
  browserStartOk : Bool
  mkdirOk : Bool
  inputFileOk : Bool

/-- Worker body for one job (main.go:100-126): capture, then makeFilepath,
then ioutil.WriteFile of path+".png"; each failure goes to handleError and the
worker moves on. -/
def processJob (flags : Flags) (env : Env) (requestURL : String) (st : RunState) : RunState :=
  match runCapture (env.capture requestURL) with
  | .error e => handleError e requestURL st
  | .ok buf =>
    match makeFilepath flags.output requestURL with
    | .error e => handleError e requestURL st
    | .ok path =>
      match env.writeFileErr (path ++ ".png") with
      | some e => handleError e requestURL st
      | none => { st with fs := fsWrite st.fs (path ++ ".png") buf }

/-- One worker's loop over the jobs it receives from the channel
(main.go:100-127): jobs are processed in order, one at a time. -/
def workerRun (flags : Flags) (env : Env) (jobs : List String) (st : RunState) : RunState :=
  jobs.foldl (fun s u => processJob flags env u s) st

/-- How one job ends: an image file written, or a failure logged. -/
inductive Resolution where
  | success (path : String) (bytes : List Nat)
  | failure (err : String)
deriving DecidableEq

/-- Outcome of one capture attempt, independent of which worker runs it. -/
def resolveJob (flags : Flags) (env : Env) (requestURL : String) : Resolution :=
  match runCapture (env.capture requestURL) with
  | .error e => .failure e
  | .ok buf =>
    match makeFilepath flags.output requestURL with
    | .error e => .failure e
    | .ok path =>
      match env.writeFileErr (path ++ ".png") with
      | some e => .failure e
      | none => .success (path ++ ".png") buf

/-- The jobs a given worker receives, for an arbitrary channel schedule
modelled as an assignment of job indices to workers; the unbuffered channel
hands each scanned URL to exactly one worker. -/
def assignedJobs (P : Nat) (assign : Nat → Fin P) (jobs : List String) (w : Fin P) :
    List String :=
  ((jobs.enum).filter (fun q => decide (assign q.1 = w))).map Prod.snd

/-- The run as observed when `wg.Wait()` (main.go:136) returns: every scanned
URL has been attempted exactly once and carries its resolution. -/
def dispatcherRun (flags : Flags) (env : Env) (jobs : List String) :
    List (String × Resolution) :=
  jobs.map fun u => (u, resolveJob flags env u)

/-- createOutputDir (main.go:196-203): MkdirAll on the output directory,
reporting failure as an error value. -/
def createOutputDir (mkdirOk : Bool) (output : String) : Except String Unit :=
  if mkdirOk then .ok () else .error ("cannot create directory " ++ output)

/-- How main's startup phase ends. -/
inductive StartupOutcome where
  | fatalExit (msg : String)
  | earlyReturn (msg : String)
  | dispatch (src : InputSrc)
deriving DecidableEq

/-- Startup sequence of main (main.go:48-93): profile file creation
(log.Fatal on failure), browser start (plain return on failure),
createOutputDir with its result discarded (main.go:80), then input selection
(log.Fatal when the named input file cannot be opened). -/
def startup (flags : Flags) (env : Env) : StartupOutcome :=
  if flags.cpuprofile ≠ "" ∧ env.profileCreateOk = false then
    .fatalExit "cannot create profile file"
  else if env.browserStartOk = false then .earlyReturn "error starting browser"
  else
    let _ := createOutputDir env.mkdirOk flags.output
    if flags.inFile ≠ "" ∧ env.inputFileOk = false then .fatalExit "cannot open input file"
    else .dispatch (inputSource flags.inFile)

/-- Environment where every external step succeeds: captures finish in one
second with bytes [7], all writes succeed. -/
def envAllOk : Env :=
  { capture := fun _ => { duration := 1, result := .ok [7] },
    writeFileErr := fun _ => none,
    profileCreateOk := true, browserStartOk := true, mkdirOk := true, inputFileOk := true }

/-- envAllOk except that the output directory cannot be created. -/
def envMkdirFails : Env := { envAllOk with mkdirOk := false }

/-- envAllOk except that every capture would take 25 seconds, past the
20-second deadline. -/
def envTimeout : Env :=
  { envAllOk with capture := fun _ => { duration := 25, result := .ok [] } }

/-! ### Helper lemmas -/

/-- Newline counting distributes over string concatenation. -/
theorem countLines_append (s t : String) : countLines (s ++ t) = countLines s + countLines t := by
  cases s with
  | mk a =>
    cases t with
    | mk b =>
      have h : (String.mk a ++ String.mk b) = String.mk (a ++ b) := rfl
      rw [h]
      simp [countLines, List.count_append]

/-- A failure line carries exactly one newline when the error text and the
URL carry none. -/
theorem countLines_errorLine (e u : String) (he : countLines e = 0) (hu : countLines u = 0) :
    countLines (errorLine e u) = 1 := by
  have h1 : countLines "run error: " = 0 := by decide
  have h2 : countLines " ------ " = 0 := by decide
  have h3 : countLines "\n" = 1 := by decide
  unfold errorLine
  rw [countLines_append, countLines_append, countLines_append, countLines_append,
    h1, h2, h3, he, hu]

/-- Each handleError call grows the log by exactly two lines: the record line
and the extra newline added by writeDataFile. -/
theorem countLines_handleError (e u : String) (st : RunState)
    (he : countLines e = 0) (hu : countLines u = 0) :
    countLines (handleError e u st).errorLog = countLines st.errorLog + 2 := by
  have h1 : (handleError e u st).errorLog = st.errorLog ++ errorLine e u ++ "\n" := rfl
  have h3 : countLines "\n" = 1 := by decide
  rw [h1, countLines_append, countLines_append, countLines_errorLine e u he hu, h3]

/-- Collapsing runs of a character only removes characters. -/
theorem mem_squeezeChar (d : Char) : ∀ (l : List Char) (c : Char), c ∈ squeezeChar d l → c ∈ l
  | [], c, h => h
  | [a], c, h => h
  | a :: b :: t, c, h => by
    have he : squeezeChar d (a :: b :: t)
        = if a == d && b == d then squeezeChar d (b :: t)
          else a :: squeezeChar d (b :: t) := rfl
    rw [he] at h
    split at h
    · exact List.mem_cons_of_mem a (mem_squeezeChar d (b :: t) c h)
    · rcases List.mem_cons.mp h with h1 | h2
      · exact h1 ▸ List.mem_cons_self a (b :: t)
      · exact List.mem_cons_of_mem a (mem_squeezeChar d (b :: t) c h2)

/-- Trimming a trailing slash only removes characters. -/
theorem mem_trimSuffixSlash (l : List Char) (c : Char) (h : c ∈ trimSuffixSlash l) : c ∈ l := by
  unfold trimSuffixSlash at h
  split at h
  · exact (List.dropLast_prefix l).subset h
  · exact h

/-- Every character surviving the second sanitization pass is in its
permitted class. -/
theorem allowed2_of_mem_sanitizeWith (s : List Char) (c : Char)
    (h : c ∈ sanitizeWith allowed2 s) : allowed2 c = true := by
  rcases List.mem_map.mp h with ⟨a, _ha, rfl⟩
  by_cases h2 : allowed2 a = true
  · rw [if_pos h2]; exact h2
  · rw [if_neg h2]; decide

/-- Every character of a built save path is in the second pass's permitted
class. -/
theorem allowed2_of_mem_buildSavePath (pre : List Char) (u : GoURL) (c : Char)
    (h : c ∈ buildSavePath pre u) : allowed2 c = true := by
  simp only [buildSavePath] at h
  have h1 := mem_trimSuffixSlash _ c h
  have h2 := mem_squeezeChar '/' _ c h1
  have h3 := mem_squeezeChar '-' _ c h2
  exact allowed2_of_mem_sanitizeWith _ c h3

/-- Every character of a successfully computed file path is in the second
sanitization pass's permitted class. -/
theorem makeFilepath_ok_chars (o u p : String) (h : makeFilepath o u = Except.ok p) :
    ∀ c ∈ p.toList, allowed2 c = true := by
  intro c hc
  unfold makeFilepath at h
  cases hm : makeFilepathChars o.toList u.toList with
  | error e =>
    rw [hm] at h
    cases h
  | ok l =>
    rw [hm] at h
    have h2 : Except.ok (String.mk l) = Except.ok p := h
    have hp : String.mk l = p := by
      injection h2
    unfold makeFilepathChars at hm
    cases hg : goUrlParse u.toList with
    | error e =>
      rw [hg] at hm
      cases hm
    | ok U =>
      rw [hg] at hm
      have hl : buildSavePath o.toList U = l := by
        injection hm with hh
      have hcl : c ∈ l := by
        rw [← hp] at hc
        exact hc
      exact allowed2_of_mem_buildSavePath o.toList U c (hl ▸ hcl)

/-- Counting jobs across the per-worker partitions of an arbitrary channel
assignment recovers the total number of jobs. -/
theorem sum_filter_assign {P : Nat} (assign : Nat → Fin P) (l : List (Nat × String)) :
    (∑ w : Fin P, (l.filter fun q => decide (assign q.1 = w)).length) = l.length := by
  induction l with
  | nil => simp
  | cons a t ih =>
    have hstep : ∀ w : Fin P,
        ((a :: t).filter fun q => decide (assign q.1 = w)).length
          = (if assign a.1 = w then 1 else 0)
            + (t.filter fun q => decide (assign q.1 = w)).length := by
      intro w
      by_cases h : assign a.1 = w
      · simp [List.filter_cons, h]
        omega
      · simp [List.filter_cons, h]
    rw [Finset.sum_congr rfl fun w _ => hstep w]
    rw [Finset.sum_add_distrib, ih]
    have hs : (∑ w : Fin P, (if assign a.1 = w then 1 else 0)) = 1 := by
      simp [Finset.sum_ite_eq]
    rw [hs]
    simp [List.length_cons]
    omega

/-! ### Claim theorems -/

/-- Claim C1, counterexample: for URL http://example.com/ with output
directory out, makeFilepath returns out/example.com-index, not the
out/example.com/index the claim states — the first sanitization pass rewrites
the slash before the substituted index segment to a dash. -/
theorem c1_counterexample :
    makeFilepath "out" "http://example.com/" = Except.ok "out/example.com-index"
  ∧ makeFilepath "out" "http://example.com/" ≠ Except.ok "out/example.com/index" := by
  constructor
  · rfl
  · intro h
    have h0 : makeFilepath "out" "http://example.com/" = Except.ok "out/example.com-index" := rfl
    rw [h0] at h
    injection h with h2
    exact absurd h2 (by decide)

/-- Claim C1, amended: for the URL http://example.com/ with output directory
out, makeFilepath returns out/example.com-index (the leading slash of the
substituted index segment is replaced by a dash in the first sanitization
pass, before the hostname is prepended). -/
theorem c1_amended :
    makeFilepath "out" "http://example.com/" = Except.ok "out/example.com-index" := rfl

/-- Claim C2, counterexample: one handleError call appends the record line
plus an extra blank line — two newline-terminated lines, not one — because
the Sprintf line already ends in a newline and writeDataFile appends
another. -/
theorem c2_counterexample :
    (handleError "boom" "http://x" initState).errorLog = "run error: boom ------ http://x\n\n"
  ∧ countLines (handleError "boom" "http://x" initState).errorLog = 2
  ∧ countLines (handleError "boom" "http://x" initState).errorLog ≠ 1 := by
  refine ⟨rfl, rfl, by decide⟩

/-- Claim C2, amended: every handleError call appends the record line
"run error: e ------ u" followed by one extra empty line, so N failure
records whose error text and URL contain no newline produce exactly 2N
newline-terminated log lines, not N. -/
theorem c2_amended :
    (∀ (e u : String) (st : RunState),
       (handleError e u st).errorLog = st.errorLog ++ errorLine e u ++ "\n")
  ∧ (∀ (records : List (String × String)) (st : RunState),
       (∀ r ∈ records, countLines r.1 = 0 ∧ countLines r.2 = 0) →
       countLines (applyRecords records st).errorLog
         = countLines st.errorLog + 2 * records.length) := by
  constructor
  · intro e u st
    rfl
  · intro records
    induction records with
    | nil =>
      intro st h
      simp [applyRecords]
    | cons r t ih =>
      intro st h
      have hr := h r (by simp)
      have ht : ∀ q ∈ t, countLines q.1 = 0 ∧ countLines q.2 = 0 := by
        intro q hq
        exact h q (by simp [hq])
      have hstep : applyRecords (r :: t) st = applyRecords t (handleError r.1 r.2 st) := rfl
      rw [hstep, ih (handleError r.1 r.2 st) ht,
        countLines_handleError r.1 r.2 st hr.1 hr.2]
      simp [List.length_cons]
      omega

/-- Claim C2, witness: the amended count law evaluated on one concrete
record. -/
theorem c2_witness :
    countLines (applyRecords [("boom", "http://x")] initState).errorLog
      = countLines initState.errorLog + 2 * List.length [("boom", "http://x")] :=
  c2_amended.2 [("boom", "http://x")] initState (by decide)

/-- Claim C3, counterexample: the input flag's default value is the literal
file name "input", so with the flag unset the program reads the file named
input, not standard input. -/
theorem c3_counterexample :
    defaultFlags.inFile = "input"
  ∧ inputSource defaultFlags.inFile = InputSrc.fromFile "input"
  ∧ inputSource defaultFlags.inFile ≠ InputSrc.fromStdin := by
  decide

/-- Claim C3, amended: the program reads standard input only when the input
flag is set to the empty string; any nonempty value names the input file, and
the unset default is the file name "input", not empty. -/
theorem c3_amended :
    inputSource "" = InputSrc.fromStdin
  ∧ (∀ s, s ≠ "" → inputSource s = InputSrc.fromFile s)
  ∧ defaultFlags.inFile = "input" := by
  refine ⟨rfl, ?_, rfl⟩
  intro s hs
  simp [inputSource, hs]

/-- Claim C3, witness: the amended input-selection law at a concrete nonempty
flag value. -/
theorem c3_witness : inputSource "urls.txt" = InputSrc.fromFile "urls.txt" :=
  c3_amended.2.1 "urls.txt" (by decide)

/-- Claim C4, counterexample: with every other startup step succeeding but
directory creation failing, main still reaches the dispatch phase — the
createOutputDir result is discarded at main.go:80, so there is no fatal exit
and jobs are processed. -/
theorem c4_counterexample :
    startup defaultFlags envMkdirFails = StartupOutcome.dispatch (InputSrc.fromFile "input")
  ∧ startup defaultFlags envMkdirFails ≠ StartupOutcome.fatalExit "cannot create profile file"
  ∧ startup defaultFlags envMkdirFails ≠ StartupOutcome.fatalExit "cannot open input file" := by
  decide

/-- Claim C4, amended: the error returned by createOutputDir is discarded, so
whenever the profile, browser, and input-file steps succeed, startup
dispatches jobs regardless of whether the output directory could be created;
directory-creation failure only surfaces later as per-job write errors. -/
theorem c4_amended : ∀ (flags : Flags) (env : Env),
    (flags.cpuprofile = "" ∨ env.profileCreateOk = true) →
    env.browserStartOk = true →
    (flags.inFile = "" ∨ env.inputFileOk = true) →
    startup flags env = StartupOutcome.dispatch (inputSource flags.inFile) := by
  intro flags env h1 h2 h3
  have n1 : ¬(flags.cpuprofile ≠ "" ∧ env.profileCreateOk = false) := by
    rcases h1 with h | h
    · intro hc
      exact hc.1 h
    · intro hc
      have hf := hc.2
      rw [h] at hf
      exact Bool.noConfusion hf
  have n3 : ¬(flags.inFile ≠ "" ∧ env.inputFileOk = false) := by
    rcases h3 with h | h
    · intro hc
      exact hc.1 h
    · intro hc
      have hf := hc.2
      rw [h] at hf
      exact Bool.noConfusion hf
  simp [startup, n1, n3, h2]

/-- Claim C4, witness: the amended startup law applied to the environment
whose directory creation fails. -/
theorem c4_witness :
    startup defaultFlags envMkdirFails = StartupOutcome.dispatch (inputSource defaultFlags.inFile) :=
  c4_amended defaultFlags envMkdirFails (Or.inl rfl) rfl (Or.inr rfl)

/-- Claim C5 (confirmed): the overwrite flag is parsed with default false but
never consulted — the per-job pipeline is unchanged under any overwrite
value; a write is a plain map update, so writing the same path twice leaves
the second bytes; and every successful capture unconditionally writes to the
computed path plus ".png". -/
theorem c5_theorem :
    defaultFlags.overwrite = false
  ∧ (∀ (flags : Flags) (b : Bool) (env : Env) (u : String) (st : RunState),
       processJob (setOverwrite flags b) env u st = processJob flags env u st)
  ∧ (∀ (fs : List (String × List Nat)) (p : String) (b1 b2 : List Nat),
       fsLookup (fsWrite (fsWrite fs p b1) p b2) p = some b2)
  ∧ (∀ (flags : Flags) (env : Env) (u : String) (st : RunState) (buf : List Nat) (path : String),
       runCapture (env.capture u) = Except.ok buf →
       makeFilepath flags.output u = Except.ok path →
       env.writeFileErr (path ++ ".png") = none →
       (processJob flags env u st).fs = fsWrite st.fs (path ++ ".png") buf) := by
  refine ⟨rfl, ?_, ?_, ?_⟩
  · intro flags b env u st
    rfl
  · intro fs p b1 b2
    simp [fsWrite, fsLookup, List.find?]
  · intro flags env u st buf path h1 h2 h3
    simp [processJob, h1, h2, h3]

/-- Claim C5, witness: the unconditional-write law evaluated in the
all-success environment on a concrete URL. -/
theorem c5_witness :
    (processJob defaultFlags envAllOk "http://example.com/" initState).fs
      = fsWrite initState.fs ("out/example.com-index" ++ ".png") [7] :=
  c5_theorem.2.2.2 defaultFlags envAllOk "http://example.com/" initState [7]
    "out/example.com-index" rfl rfl rfl

/-- Claim C6 (confirmed): the per-job deadline constant is 20 seconds; a
capture whose duration exceeds it resolves to Go's context deadline error and
is recorded through handleError; and the worker loop then continues with the
remaining jobs. -/
theorem c6_theorem :
    jobTimeoutSeconds = 20
  ∧ (∀ (flags : Flags) (env : Env) (u : String) (st : RunState),
       jobTimeoutSeconds < (env.capture u).duration →
       processJob flags env u st = handleError "context deadline exceeded" u st)
  ∧ (∀ (flags : Flags) (env : Env) (u : String) (js : List String) (st : RunState),
       workerRun flags env (u :: js) st = workerRun flags env js (processJob flags env u st)) := by
  refine ⟨rfl, ?_, ?_⟩
  · intro flags env u st h
    have hc : runCapture (env.capture u) = Except.error "context deadline exceeded" := by
      unfold runCapture
      rw [if_pos h]
    simp [processJob, hc]
  · intro flags env u js st
    rfl

/-- Claim C6, witness: the deadline law applied to the environment whose
captures take 25 seconds. -/
theorem c6_witness :
    processJob defaultFlags envTimeout "http://x" initState
      = handleError "context deadline exceeded" "http://x" initState :=
  c6_theorem.2.1 defaultFlags envTimeout "http://x" initState (by decide)

/-- Claim C7, counterexample: the empty string — the spec's own example of a
malformed URL — is accepted by Go's url.Parse, and makeFilepath returns the
output directory itself instead of an error. -/
theorem c7_counterexample :
    makeFilepath "out" "" = Except.ok "out" := rfl

/-- Claim C7, amended: a URL whose part before any fragment separator
contains a control character makes url.Parse fail and makeFilepath return the
parse error, but the empty string is not rejected: it parses successfully and
yields the output directory as the path. -/
theorem c7_amended :
    (∀ (o s : String), containsCTLByte (split '#' true s.toList).1 = true →
        ∃ e, makeFilepath o s = Except.error e)
  ∧ makeFilepath "out" "" = Except.ok "out" := by
  constructor
  · intro o s h
    refine ⟨"net/url: invalid control character in URL", ?_⟩
    have hp : parse (split '#' true s.toList).1 false
        = Except.error "net/url: invalid control character in URL" := by
      unfold parse
      rw [if_pos h]
    simp only [makeFilepath, makeFilepathChars, goUrlParse, hp]
  · rfl

/-- Claim C7, witness: the amended control-character law at the one-byte
control string. -/
theorem c7_witness : ∃ e, makeFilepath "out" "\x01" = Except.error e :=
  c7_amended.1 "out" "\x01" (by decide)

/-- Claim C8 (confirmed over the embedded dispatch model): for any pool size
and any channel assignment of job indices to workers, the per-worker job
lists partition the N input URLs, exactly N capture attempts are made (one
resolution per URL, in input order), and when the run returns every job
carries a resolution — success or failure. -/
theorem c8_theorem (P : Nat) (assign : Nat → Fin P) (flags : Flags) (env : Env)
    (jobs : List String) :
    (∑ w : Fin P, (assignedJobs P assign jobs w).length) = jobs.length
  ∧ (dispatcherRun flags env jobs).map Prod.fst = jobs
  ∧ (dispatcherRun flags env jobs).length = jobs.length
  ∧ ∀ r, r ∈ dispatcherRun flags env jobs →
      (∃ q b, r.2 = Resolution.success q b) ∨ (∃ e, r.2 = Resolution.failure e) := by
  refine ⟨?_, ?_, ?_, ?_⟩
  · have h := sum_filter_assign assign jobs.enum
    calc (∑ w : Fin P, (assignedJobs P assign jobs w).length)
        = ∑ w : Fin P, ((jobs.enum.filter fun q => decide (assign q.1 = w)).length) := by
          apply Finset.sum_congr rfl
          intro w _
          simp [assignedJobs]
      _ = jobs.enum.length := h
      _ = jobs.length := by simp
  · show (jobs.map fun u => (u, resolveJob flags env u)).map Prod.fst = jobs
    rw [List.map_map]
    have hid : (Prod.fst ∘ fun u => (u, resolveJob flags env u)) = id := rfl
    rw [hid, List.map_id]
  · simp [dispatcherRun]
  · intro r hr
    rcases List.mem_map.mp hr with ⟨u0, _hu, rfl⟩
    cases h : resolveJob flags env u0 with
    | success q b => exact Or.inl ⟨q, b, rfl⟩
    | failure e => exact Or.inr ⟨e, rfl⟩

/-- Claim C8, witness: the resolution totality law applied to a concrete
one-job run under a two-worker assignment. -/
theorem c8_witness :
    (∃ q b, (("http://example.com/",
        resolveJob defaultFlags envAllOk "http://example.com/") : String × Resolution).2
          = Resolution.success q b)
  ∨ (∃ e, (("http://example.com/",
        resolveJob defaultFlags envAllOk "http://example.com/") : String × Resolution).2
          = Resolution.failure e) :=
  (c8_theorem 2 (fun n => ⟨n % 2, by omega⟩) defaultFlags envAllOk
      ["http://example.com/"]).2.2.2
    ("http://example.com/", resolveJob defaultFlags envAllOk "http://example.com/")
    (by simp [dispatcherRun])

/-- Claim C9 (confirmed): makeFilepath is a pure Lean function of its two
string arguments — two calls with the same output directory and URL always
return the same result. -/
theorem c9_theorem : ∀ (o u : String) (r1 r2 : Except String String),
    makeFilepath o u = r1 → makeFilepath o u = r2 → r1 = r2 := by
  intro o u r1 r2 h1 h2
  rw [← h1]
  exact h2

/-- Claim C9, witness: determinism instantiated at a concrete URL, pinning
the common value of the two calls. -/
theorem c9_witness : makeFilepath "out" "http://example.com/a" = Except.ok "out/example.com-a" :=
  c9_theorem "out" "http://example.com/a" (makeFilepath "out" "http://example.com/a")
    (Except.ok "out/example.com-a") rfl (by rfl)

/-- Claim C10 (confirmed): the second sanitization pass covers the composed
string including the caller-supplied output directory, so an output directory
containing a character outside the permitted class is never a literal prefix
of the returned path; concretely, the directory "my out" is rewritten to
"my-out", which does prefix the result. -/
theorem c10_theorem :
    (∀ (o u p : String), (∃ c ∈ o.toList, allowed2 c = false) →
        makeFilepath o u = Except.ok p → ¬ (o.toList <+: p.toList))
  ∧ makeFilepath "my out" "http://example.com/" = Except.ok "my-out/example.com-index"
  ∧ sanitizeWith allowed2 "my out".toList = "my-out".toList
  ∧ List.isPrefixOf "my-out".toList "my-out/example.com-index".toList = true := by
  refine ⟨?_, rfl, by decide, by decide⟩
  intro o u p hbad hok hpre
  rcases hbad with ⟨c, hc, hcf⟩
  have hmem : c ∈ p.toList := hpre.subset hc
  have hall := makeFilepath_ok_chars o u p hok c hmem
  rw [hall] at hcf
  exact Bool.noConfusion hcf

/-- Claim C10, witness: the prefix-rewriting law applied to the directory
"my out" and the URL http://example.com/. -/
theorem c10_witness : ¬ ("my out".toList <+: "my-out/example.com-index".toList) :=
  c10_theorem.1 "my out" "http://example.com/" "my-out/example.com-index"
    (by decide) (by rfl)

end Screenshot
